import Mathlib

/-!
Shallow embedding of the browser-use-agent core of `cnu-library-rag-3`
(`mcp-server/bua/tools.py`, `mcp-server/bua/snapshot.py`,
`mcp-server/bua/agent.py`).

External effects (the live Playwright page, the LLM callback, `json.loads`,
wall-clock time) are modelled by explicit oracle records: every primitive
page operation is a field of an environment structure whose outcome is either
a returned value or a raised exception carrying a message string.  The Python
functions are translated control-flow-faithfully into total Lean functions
over those oracles; an execution of the Python code corresponds to one choice
of oracle, so universally quantified theorems cover every run.
-/

set_option maxHeartbeats 1000000

namespace Bua

/-! ## tools.py — action vocabulary -/

/-- ActionType enum of `tools.py` (11 kinds). -/
inductive ActionType where
  | navigate
  | click
  | type
  | select
  | scroll
  | wait
  | press_key
  | hover
  | go_back
  | screenshot
  | done
deriving DecidableEq, Repr

/-- Action dataclass of `tools.py`: kind, optional selector, optional value,
rationale string (default `""`). -/
structure Action where
  action_type : ActionType
  selector : Option String := none
  value : Option String := none
  reason : String := ""
deriving DecidableEq, Repr

/-- ActionResult dataclass of `tools.py`. -/
structure ActionResult where
  success : Bool
  message : String
  action : Action
  before_url : String
  after_url : String
  error : Option String := none
  screenshot_path : Option String := none
deriving DecidableEq, Repr

/-- Outcome of one primitive Playwright call: a returned value, or a raised
exception carrying the message that Python's `str(e)` would produce. -/
inductive PrimOutcome (α : Type) where
  | ok (a : α)
  | exn (msg : String)
deriving DecidableEq, Repr

/-- Oracle for the page operations one `BrowserTools.execute` call consumes.
`urlBefore` is the value of `page.url` when the call starts; `urlAfter` is
its value when the result object is built (all result constructions in the
source read `self.page.url` at return time).  Element handles returned by
`wait_for_selector` are opaque naturals. -/
structure PageEnv where
  urlBefore : String
  urlAfter : String
  gotoOp : Option String → PrimOutcome Unit
  waitForSelector : Option String → PrimOutcome (Option Nat)
  scrollIntoViewOp : Nat → PrimOutcome Unit
  clickOp : Nat → PrimOutcome Unit
  fillOp : Nat → String → PrimOutcome Unit
  selectByValue : Nat → Option String → PrimOutcome Unit
  selectByLabel : Nat → Option String → PrimOutcome Unit
  hoverOp : Nat → PrimOutcome Unit
  evaluateOp : String → PrimOutcome Unit
  keyboardPress : Option String → PrimOutcome Unit
  goBackOp : PrimOutcome Unit
  screenshotOp : String → PrimOutcome Unit

/-- Lift a primitive outcome into the `Except` monad that models the Python
`try` block (a raised exception propagates to the enclosing handler). -/
def toExcept : PrimOutcome α → Except String α
  | .ok a => .ok a
  | .exn m => .error m

/-- Python `str.lower()` (character-wise lower-casing, kernel-computable). -/
def pyLower (s : String) : String :=
  String.mk (s.data.map Char.toLower)

/-- Python f-string rendering of an `Optional[str]`: `None` prints as
`"None"`. -/
def pyStr : Option String → String
  | some s => s
  | none => "None"

/-- Python float-literal recognizer used to model `float(seconds)` in
`_wait` (sign, digits with optional dot, optional exponent, `inf`/`nan`;
digit-group underscores are not modelled).  Only the success/failure of the
conversion matters to the embedded code. -/
def pyFloatOk (s : String) : Bool :=
  let l := (s.trim.toLower).data
  let l := match l with
    | '+' :: r => r
    | '-' :: r => r
    | r => r
  if l = ['i', 'n', 'f'] ∨ l = ['i', 'n', 'f', 'i', 'n', 'i', 't', 'y'] ∨
      l = ['n', 'a', 'n'] then true
  else
    let intPart := l.takeWhile Char.isDigit
    let rest := l.dropWhile Char.isDigit
    let (mantOk, afterMant) :=
      match rest with
      | '.' :: r2 =>
          (decide (intPart.length + (r2.takeWhile Char.isDigit).length > 0),
           r2.dropWhile Char.isDigit)
      | r => (decide (intPart.length > 0), r)
    let expPart :=
      match afterMant with
      | [] => true
      | 'e' :: r =>
          let r2 := match r with
            | '+' :: r3 => r3
            | '-' :: r3 => r3
            | r3 => r3
          decide (r2 ≠ []) && r2.all Char.isDigit
      | _ => false
    mantOk && expPart

/-! Helper constructors shared by the per-kind tool methods. -/

/-- Successful ActionResult as built inside each tool method. -/
def okResult (env : PageEnv) (a : Action) (msg : String) : ActionResult :=
  { success := true
    message := msg
    action := a
    before_url := env.urlBefore
    after_url := env.urlAfter }

/-- Failed ActionResult as built inside each tool method. -/
def failResult (env : PageEnv) (a : Action) (msg err : String) : ActionResult :=
  { success := false
    message := msg
    action := a
    before_url := env.urlBefore
    after_url := env.urlAfter
    error := some err }

/-- Body of the `try` block of `BrowserTools._navigate`. -/
def navigateTry (env : PageEnv) (url : Option String) : Except String ActionResult := do
  let _ ← toExcept (env.gotoOp url)
  pure (okResult env ⟨.navigate, none, url, ""⟩ ("Navigation completed: " ++ pyStr url))

/-- Model of `BrowserTools._navigate`: the `except` clause converts a raised message
into a failed result. -/
def navigateAct (env : PageEnv) (url : Option String) : ActionResult :=
  match navigateTry env url with
  | .ok r => r
  | .error e =>
      failResult env ⟨.navigate, none, url, ""⟩ ("Navigation failed: " ++ e) e

/-- Body of the `try` block of `BrowserTools._click`. -/
def clickTry (env : PageEnv) (selector : Option String) : Except String ActionResult := do
  let a : Action := ⟨.click, selector, none, ""⟩
  let elem ← toExcept (env.waitForSelector selector)
  match elem with
  | none =>
      pure (failResult env a ("Element not found: " ++ pyStr selector) "Element not found")
  | some el => do
      let _ ← toExcept (env.scrollIntoViewOp el)
      let _ ← toExcept (env.clickOp el)
      pure (okResult env a ("Click completed: " ++ pyStr selector))

/-- Model of `BrowserTools._click`. -/
def clickAct (env : PageEnv) (selector : Option String) : ActionResult :=
  match clickTry env selector with
  | .ok r => r
  | .error e =>
      failResult env ⟨.click, selector, none, ""⟩ ("Click failed: " ++ e) e

/-- Body of the `try` block of `BrowserTools._type`.  When `text` is `None`
both `element.fill(text)` and the success f-string `text[:20]` raise inside
the `try`; the raised message is the standard Python one. -/
def typeTry (env : PageEnv) (selector : Option String) (text : Option String) :
    Except String ActionResult := do
  let a : Action := ⟨.type, selector, text, ""⟩
  let elem ← toExcept (env.waitForSelector selector)
  match elem with
  | none =>
      pure (failResult env a ("Element not found: " ++ pyStr selector) "Element not found")
  | some el => do
      let _ ← toExcept (env.clickOp el)
      let _ ← toExcept (env.fillOp el "")
      match text with
      | none => throw "'NoneType' object is not subscriptable"
      | some t => do
          let _ ← toExcept (env.fillOp el t)
          pure (okResult env a
            ("Input completed: " ++ pyStr selector ++ " <- '" ++ t.take 20 ++ "...'"))

/-- Model of `BrowserTools._type`. -/
def typeAct (env : PageEnv) (selector : Option String) (text : Option String) : ActionResult :=
  match typeTry env selector text with
  | .ok r => r
  | .error e =>
      failResult env ⟨.type, selector, text, ""⟩ ("Input failed: " ++ e) e

/-- Body of the `try` block of `BrowserTools._select`: try by value, and on
any exception retry by label (the inner bare `except`). -/
def selectTry (env : PageEnv) (selector : Option String) (value : Option String) :
    Except String ActionResult := do
  let a : Action := ⟨.select, selector, value, ""⟩
  let elem ← toExcept (env.waitForSelector selector)
  match elem with
  | none =>
      pure (failResult env a ("Element not found: " ++ pyStr selector) "Element not found")
  | some el => do
      let _ ← match env.selectByValue el value with
        | .ok _ => pure ()
        | .exn _ => toExcept (env.selectByLabel el value)
      pure (okResult env a
        ("Selection completed: " ++ pyStr selector ++ " <- '" ++ pyStr value ++ "'"))

/-- Model of `BrowserTools._select`. -/
def selectAct (env : PageEnv) (selector : Option String) (value : Option String) : ActionResult :=
  match selectTry env selector value with
  | .ok r => r
  | .error e =>
      failResult env ⟨.select, selector, value, ""⟩ ("Selection failed: " ++ e) e

/-- Body of the `try` block of `BrowserTools._scroll`; an unknown direction
falls through every branch and still succeeds. -/
def scrollTry (env : PageEnv) (direction : Option String) : Except String ActionResult := do
  let a : Action := ⟨.scroll, none, direction, ""⟩
  let _ ←
    if direction = some "down" then
      toExcept (env.evaluateOp "window.scrollBy(0, 500)")
    else if direction = some "up" then
      toExcept (env.evaluateOp "window.scrollBy(0, -500)")
    else if direction = some "top" then
      toExcept (env.evaluateOp "window.scrollTo(0, 0)")
    else if direction = some "bottom" then
      toExcept (env.evaluateOp "window.scrollTo(0, document.body.scrollHeight)")
    else
      pure ()
  pure (okResult env a ("Scroll completed: " ++ pyStr direction))

/-- Model of `BrowserTools._scroll`. -/
def scrollAct (env : PageEnv) (direction : Option String) : ActionResult :=
  match scrollTry env direction with
  | .ok r => r
  | .error e =>
      failResult env ⟨.scroll, none, direction, ""⟩ ("Scroll failed: " ++ e) e

/-- Body of the `try` block of `BrowserTools._wait`: `float(seconds)` raises
`TypeError` on `None` and `ValueError` on an unparsable string; the success
message renders the parsed duration (modelled with the original text). -/
def waitTry (env : PageEnv) (seconds : Option String) : Except String ActionResult := do
  let a : Action := ⟨.wait, none, seconds, ""⟩
  match seconds with
  | none => throw "float() argument must be a string or a real number, not 'NoneType'"
  | some s =>
      if pyFloatOk s then
        pure (okResult env a (s ++ "초 Wait completed"))
      else
        throw ("could not convert string to float: '" ++ s ++ "'")

/-- Model of `BrowserTools._wait`. -/
def waitAct (env : PageEnv) (seconds : Option String) : ActionResult :=
  match waitTry env seconds with
  | .ok r => r
  | .error e =>
      failResult env ⟨.wait, none, seconds, ""⟩ ("Wait failed: " ++ e) e

/-- Body of the `try` block of `BrowserTools._press_key`. -/
def pressKeyTry (env : PageEnv) (key : Option String) : Except String ActionResult := do
  let a : Action := ⟨.press_key, none, key, ""⟩
  let _ ← toExcept (env.keyboardPress key)
  pure (okResult env a ("키 Input completed: " ++ pyStr key))

/-- Model of `BrowserTools._press_key`. -/
def pressKeyAct (env : PageEnv) (key : Option String) : ActionResult :=
  match pressKeyTry env key with
  | .ok r => r
  | .error e =>
      failResult env ⟨.press_key, none, key, ""⟩ ("키 Input failed: " ++ e) e

/-- Body of the `try` block of `BrowserTools._hover`. -/
def hoverTry (env : PageEnv) (selector : Option String) : Except String ActionResult := do
  let a : Action := ⟨.hover, selector, none, ""⟩
  let elem ← toExcept (env.waitForSelector selector)
  match elem with
  | some el => do
      let _ ← toExcept (env.hoverOp el)
      pure (okResult env a ("Hover completed: " ++ pyStr selector))
  | none =>
      pure (failResult env a ("Element not found: " ++ pyStr selector) "Element not found")

/-- Model of `BrowserTools._hover`. -/
def hoverAct (env : PageEnv) (selector : Option String) : ActionResult :=
  match hoverTry env selector with
  | .ok r => r
  | .error e =>
      failResult env ⟨.hover, selector, none, ""⟩ ("Hover failed: " ++ e) e

/-- Body of the `try` block of `BrowserTools._go_back`. -/
def goBackTry (env : PageEnv) : Except String ActionResult := do
  let a : Action := ⟨.go_back, none, none, ""⟩
  let _ ← toExcept env.goBackOp
  pure (okResult env a "Go back completed")

/-- Model of `BrowserTools._go_back`. -/
def goBackAct (env : PageEnv) : ActionResult :=
  match goBackTry env with
  | .ok r => r
  | .error e =>
      failResult env ⟨.go_back, none, none, ""⟩ ("Go back failed: " ++ e) e

/-- Filename defaulting of `BrowserTools._screenshot`: a missing or empty
(falsy) filename becomes `screenshot_<len(action_history)>.png`. -/
def screenshotName (histLen : Nat) (filename : Option String) : String :=
  match filename with
  | some f => if f = "" then "screenshot_" ++ toString histLen ++ ".png" else f
  | none => "screenshot_" ++ toString histLen ++ ".png"

/-- Body of the `try` block of `BrowserTools._screenshot`. -/
def screenshotTry (env : PageEnv) (histLen : Nat) (filename : Option String) :
    Except String ActionResult := do
  let fn := screenshotName histLen filename
  let a : Action := ⟨.screenshot, none, some fn, ""⟩
  let _ ← toExcept (env.screenshotOp fn)
  pure { okResult env a ("Screenshot saved: " ++ fn) with screenshot_path := some fn }

/-- Model of `BrowserTools._screenshot`. -/
def screenshotAct (env : PageEnv) (histLen : Nat) (filename : Option String) : ActionResult :=
  match screenshotTry env histLen filename with
  | .ok r => r
  | .error e =>
      failResult env ⟨.screenshot, none, some (screenshotName histLen filename), ""⟩
        ("Screenshot failed: " ++ e) e

/-- Model of `BrowserTools.execute`: dispatch on the action kind, catch every
exception, and append the result to `action_history` (threaded here as an
explicit list, returned updated).  The Python `else` arm for a non-enum
action kind is unreachable because `ActionType` is a closed enum. -/
def execute (env : PageEnv) (history : List ActionResult) (action : Action) :
    ActionResult × List ActionResult :=
  let r :=
    match action.action_type with
    | .navigate => navigateAct env action.value
    | .click => clickAct env action.selector
    | .type => typeAct env action.selector action.value
    | .select => selectAct env action.selector action.value
    | .scroll => scrollAct env action.value
    | .wait => waitAct env action.value
    | .press_key => pressKeyAct env action.value
    | .hover => hoverAct env action.selector
    | .go_back => goBackAct env
    | .screenshot => screenshotAct env history.length action.value
    | .done =>
        { success := true
          message := "Task completed"
          action := action
          before_url := env.urlBefore
          after_url := env.urlAfter }
  (r, history ++ [r])

/-! ## tools.py — parse_action_from_dict -/

/-- Model of the JSON mapping the LLM returns: the four keys the code reads
(each possibly absent) plus a flag recording whether the mapping carries any
other key, needed to model Python truthiness of the dict. -/
structure ActionDict where
  action : Option String := none
  selector : Option String := none
  value : Option String := none
  reason : Option String := none
  hasOtherKeys : Bool := false
deriving DecidableEq, Repr

/-- Python truthiness of the parsed dict (`if not action_dict`): an empty
mapping is falsy. -/
def ActionDict.nonempty (d : ActionDict) : Bool :=
  d.action.isSome || d.selector.isSome || d.value.isSome || d.reason.isSome || d.hasOtherKeys

/-- Lookup table `action_type_map` of `parse_action_from_dict`. -/
def actionTypeMap : List (String × ActionType) :=
  [("navigate", .navigate), ("click", .click), ("type", .type), ("select", .select),
   ("scroll", .scroll), ("wait", .wait), ("press_key", .press_key), ("hover", .hover),
   ("go_back", .go_back), ("screenshot", .screenshot), ("done", .done)]

/-- Model of `parse_action_from_dict` of `tools.py`: lower-case the `action` entry
(default `""`), look it up (default `ActionType.WAIT`), and carry over
selector/value/reason. -/
def parse_action_from_dict (d : ActionDict) : Action :=
  let action_type_str := pyLower (d.action.getD "")
  let action_type := (actionTypeMap.lookup action_type_str).getD ActionType.wait
  { action_type := action_type
    selector := d.selector
    value := d.value
    reason := d.reason.getD "" }

/-! ## snapshot.py — data model and renderer -/

/-- Bounding box of an element (`snapshot.py` rounds the Playwright floats to
one decimal; the renderer never reads the box, so the numeric type is
immaterial and kept integral). -/
structure BBox where
  x : Int
  y : Int
  width : Int
  height : Int
deriving DecidableEq, Repr

/-- ElementInfo dataclass of `snapshot.py`. -/
structure ElementInfo where
  index : Nat
  tag : String
  role : String
  text : String
  href : Option String
  placeholder : Option String
  value : Option String
  bbox : BBox
  selector : String
  is_clickable : Bool
  is_editable : Bool
  is_visible : Bool
  attributes : List (String × String)
deriving DecidableEq, Repr

/-- One field of a form descriptor as extracted by `_extract_forms`. -/
structure FormField where
  tag : String
  name : String
  fieldType : String
  placeholder : String
  required : Bool
deriving DecidableEq, Repr

/-- One form descriptor as extracted by `_extract_forms`. -/
structure FormInfo where
  index : Nat
  action : String
  method : String
  fields : List FormField
deriving DecidableEq, Repr

/-- PageSnapshot dataclass of `snapshot.py`. -/
structure PageSnapshot where
  url : String
  title : String
  elements : List ElementInfo
  forms : List FormInfo
  page_type : String
  summary : String
deriving DecidableEq, Repr

/-- One element line of `snapshot_to_text` (the `utf-8`
encode/replace/decode round-trip is the identity on well-formed text and is
modelled as such). -/
def elemDesc (elem : ElementInfo) : String :=
  let d := "[" ++ toString elem.index ++ "] <" ++ elem.tag ++ ">"
  let d := if elem.text ≠ "" then d ++ (" '" ++ elem.text.take 30 ++ "'") else d
  let d := match elem.href with
    | some h => if h ≠ "" then d ++ (" href='" ++ h.take 50 ++ "'") else d
    | none => d
  let d := match elem.placeholder with
    | some p => if p ≠ "" then d ++ (" placeholder='" ++ p ++ "'") else d
    | none => d
  let d := if elem.role ≠ "" then d ++ (" role='" ++ elem.role ++ "'") else d
  let d := d ++ (" | selector: " ++ elem.selector)
  let d := if elem.is_clickable then d ++ " [clickable]" else d
  let d := if elem.is_editable then d ++ " [editable]" else d
  d

/-- One form line of `snapshot_to_text`. -/
def formDesc (form : FormInfo) : String :=
  "Form " ++ toString form.index ++ ": action=" ++ form.action ++ ", fields=" ++
    toString form.fields.length

/-- Truncation line appended by `snapshot_to_text` when elements overflow
`max_elements`. -/
def moreLine (n : Nat) : String :=
  "... and " ++ toString n ++ " more elements"

/-- Line list built by `snapshot_to_text` before the final join. -/
def snapshotLines (snapshot : PageSnapshot) (maxElements : Nat) : List String :=
  (["=== Page Snapshot ===",
    "URL: " ++ snapshot.url,
    "Title: " ++ snapshot.title,
    "Page Type: " ++ snapshot.page_type,
    "",
    "=== Interactive Elements ==="]
    ++ (snapshot.elements.take maxElements).map elemDesc
    ++ (if maxElements < snapshot.elements.length then
          [moreLine (snapshot.elements.length - maxElements)]
        else [])
    ++ (if snapshot.forms ≠ [] then
          "" :: "=== Forms ===" :: snapshot.forms.map formDesc
        else []))

/-- Model of `snapshot_to_text` of `snapshot.py` (`max_elements` defaults to 50 at the
call sites). -/
def snapshot_to_text (snapshot : PageSnapshot) (maxElements : Nat) : String :=
  String.intercalate "\n" (snapshotLines snapshot maxElements)

/-- Recognizer for a truncation-style line: a line whose text begins with the
marker `"... and "` that only the overflow line of `snapshot_to_text`
emits. -/
def isMoreLine (l : String) : Bool :=
  match l.data with
  | '.' :: '.' :: '.' :: ' ' :: 'a' :: 'n' :: 'd' :: ' ' :: _ => true
  | _ => false

/-! ## agent.py — LLM-response action extraction

`_select_action` runs `re.search` with the pattern matching one `\x7b`, a
run of non-brace characters, and one `\x7d`: the leftmost substring of the
response that is a brace pair with no brace inside.  `scanFlat` models the
pattern tail after an opening brace; `extractFlatAux` models the leftmost
search. -/

/-- Given the characters after an opening brace, return the inner run when
the next brace character is a closing brace, and `none` when it is another
opening brace or the input ends. -/
def scanFlat : List Char → Option (List Char)
  | [] => none
  | c :: rest =>
      if c = '\x7d' then some []
      else if c = '\x7b' then none
      else (scanFlat rest).map (c :: ·)

/-- Leftmost match of the `_select_action` regex over the response text. -/
def extractFlatAux : List Char → Option (List Char)
  | [] => none
  | c :: rest =>
      if c = '\x7b' then
        match scanFlat rest with
        | some mid => some ('\x7b' :: (mid ++ ['\x7d']))
        | none => extractFlatAux rest
      else extractFlatAux rest

/-- Substring extraction step of `_select_action`. -/
def extractFlat (response : String) : Option (List Char) :=
  extractFlatAux response.data

/-- Modelled from the spec: "extracts the first brace-balanced `\x7b...\x7d`
substring" — from the first opening brace, take characters up to the
matching closing brace tracked by nesting depth.  This is the spec's wording,
written only to compare against `extractFlat`, the extraction the code
performs. -/
def balScan : List Char → Nat → Option (List Char)
  | [], _ => none
  | c :: rest, depth =>
      if c = '\x7b' then (balScan rest (depth + 1)).map (c :: ·)
      else if c = '\x7d' then
        if depth = 1 then some [c] else (balScan rest (depth - 1)).map (c :: ·)
      else (balScan rest depth).map (c :: ·)

/-- Modelled from the spec: leftmost brace-balanced substring (see
`balScan`). -/
def extractBalanced : List Char → Option (List Char)
  | [] => none
  | c :: rest =>
      if c = '\x7b' then (balScan rest 1).map (c :: ·) else extractBalanced rest

/-- JSON-parsing step of `_select_action`: extract the regex match and run
`json.loads` on it (modelled by the oracle `decode`; `none` is a
`JSONDecodeError`, which the source catches and turns into `None`). -/
def select_action_parse (decode : String → Option ActionDict) (response : String) :
    Option ActionDict :=
  match extractFlat response with
  | some cs => decode (String.mk cs)
  | none => none

/-! ## agent.py — configuration, records, post-summary -/

/-- AgentConfig dataclass of `agent.py` (defaults as in the source). -/
structure AgentConfig where
  max_steps : Nat := 30
  max_retries : Nat := 3
  timeout : Nat := 60000
  headless : Bool := false
  viewport_width : Nat := 1280
  viewport_height : Nat := 900
  locale : String := "ko-KR"
  llm_provider : String := "anthropic"
deriving DecidableEq, Repr

/-- StepRecord dataclass of `agent.py` (`timestamp` is filled from the
clock oracle). -/
structure StepRecord where
  step : Nat
  thought : String
  action : ActionDict
  observation : String
  success : Bool
  timestamp : String
deriving DecidableEq, Repr

/-- PageSummary dataclass of `agent.py`. -/
structure PageSummary where
  url : String
  page_type : String
  completed_actions : List String
  learned_rules : List String
  next_expected : String
deriving DecidableEq, Repr

/-- Python `list[-5:]`: the most recent five entries. -/
def lastFive (l : List StepRecord) : List StepRecord :=
  l.drop (l.length - 5)

/-- Filter of `_post_summary`: successful records whose action name is not
`wait` (`r.action.get('action') != 'wait'`). -/
def postFilter (r : StepRecord) : Bool :=
  r.success && decide (r.action.action ≠ some "wait")

/-- Formatting of one completed action in `_post_summary`:
`f"<action>: <selector-or-value>"` with Python `dict.get` fallbacks. -/
def completedFormat (r : StepRecord) : String :=
  pyStr r.action.action ++ ": " ++ r.action.selector.getD (r.action.value.getD "")

/-- Model of `BrowserUseAgent._post_summary`: filter the step history, keep the last
five, format them, and fill the remaining fields with placeholders. -/
def post_summary (step_history : List StepRecord) (url : String) : PageSummary :=
  let url_actions := step_history.filter postFilter
  { url := url
    page_type := "unknown"
    completed_actions := (lastFive url_actions).map completedFormat
    learned_rules := []
    next_expected := "" }

/-! ## agent.py — the run loop -/

/-- Oracle for the external effects one `run` consumes, indexed by the loop
step counter: snapshot-extraction attempts (the combined
`wait_for_load_state` + `extract` try-body; `none` is a raised exception),
the LLM callback's response text, `json.loads` on the extracted substring,
`tools.execute`, the `page.url` reads, and the record timestamps. -/
structure AgentEnv where
  attempt : Nat → Nat → Option PageSnapshot
  llm : Nat → String
  decode : String → Option ActionDict
  exec : Nat → Action → ActionResult
  urlTop : Nat → String
  urlFinal : String
  timeAt : Nat → String

/-- Pre-analysis retry loop of `run` (`for retry in range(3)`): the snapshot
obtained, if any, together with the number of extraction attempts made. -/
def preAnalysis (env : AgentEnv) (step : Nat) : Option PageSnapshot × Nat :=
  match env.attempt step 0 with
  | some s => (some s, 1)
  | none =>
      match env.attempt step 1 with
      | some s => (some s, 2)
      | none =>
          match env.attempt step 2 with
          | some s => (some s, 3)
          | none => (none, 3)

/-- Mutable loop state of one `run`: the step counter, `last_url`, this
run's `step_history`, the agent's `page_summaries`, the `is_running` flag,
and the trace of actions given to `tools.execute` (the mirror of
`tools.action_history`, used to observe that nothing runs after `done`). -/
structure LoopState where
  step : Nat
  last_url : String
  step_history : List StepRecord
  page_summaries : List PageSummary
  is_running : Bool
  trace : List (Nat × Action)
deriving Repr

/-- ReAct loop of `BrowserUseAgent.run`; `fuel` counts the remaining
iterations allowed by `step < max_steps`. -/
def loopGo (env : AgentEnv) : Nat → LoopState → LoopState
  | 0, st => st
  | fuel + 1, st =>
      if st.is_running = false then st
      else
        let step' := st.step + 1
        let current_url := env.urlTop step'
        let summaries :=
          if st.last_url ≠ "" ∧ current_url ≠ st.last_url then
            st.page_summaries ++ [post_summary st.step_history st.last_url]
          else st.page_summaries
        match (preAnalysis env step').1 with
        | none => { st with step := step', page_summaries := summaries }
        | some _snapshot =>
            match select_action_parse env.decode (env.llm step') with
            | none => { st with step := step', page_summaries := summaries }
            | some d =>
                if d.nonempty = false then
                  { st with step := step', page_summaries := summaries }
                else
                  let a := parse_action_from_dict d
                  let r := env.exec step' a
                  let record : StepRecord :=
                    { step := step'
                      thought := d.reason.getD ""
                      action := d
                      observation := r.message
                      success := r.success
                      timestamp := env.timeAt step' }
                  let hist := st.step_history ++ [record]
                  let tr := st.trace ++ [(step', a)]
                  if a.action_type = ActionType.done then
                    { step := step', last_url := st.last_url, step_history := hist,
                      page_summaries := summaries, is_running := false, trace := tr }
                  else
                    loopGo env fuel
                      { step := step', last_url := current_url, step_history := hist,
                        page_summaries := summaries, is_running := true, trace := tr }

/-- Agent fields that persist across `run` invocations. -/
structure AgentState where
  step_history : List StepRecord
  page_summaries : List PageSummary
  current_goal : String
  is_running : Bool

/-- Final dictionary returned by `run`. -/
structure RunResult where
  success : Bool
  goal : String
  steps : Nat
  history : List StepRecord
  page_summaries : List PageSummary
  final_url : String
deriving Repr

/-- Model of `BrowserUseAgent.run`: reset the goal and step history, optionally
navigate to the start URL (the traced step-0 action), run the loop, and
build the result dictionary together with the post-run agent state and the
executed-action trace. -/
def run (cfg : AgentConfig) (env : AgentEnv) (s₀ : AgentState) (goal : String)
    (start_url : Option String) : RunResult × AgentState × List (Nat × Action) :=
  let st0 : LoopState :=
    { step := 0
      last_url := ""
      step_history := []
      page_summaries := s₀.page_summaries
      is_running := true
      trace :=
        match start_url with
        | some u => [(0, ⟨ActionType.navigate, none, some u, ""⟩)]
        | none => [] }
  let fin := loopGo env cfg.max_steps st0
  ({ success := !fin.is_running || decide (fin.step < cfg.max_steps)
     goal := goal
     steps := fin.step
     history := fin.step_history
     page_summaries := fin.page_summaries
     final_url := env.urlFinal },
   { step_history := fin.step_history
     page_summaries := fin.page_summaries
     current_goal := goal
     is_running := fin.is_running },
   fin.trace)

/-! ## Lemmas: executor result contract (claim C2) -/

/-- Well-formed primitive outcome: a raised exception carries a non-empty
message (Playwright and the Python runtime never raise with an empty
`str(e)`). -/
def primOk {α : Type} : PrimOutcome α → Prop
  | .exn m => m ≠ ""
  | .ok _ => True

/-- Result contract of one tool method: both location fields reflect the
page reads, and a failure carries a non-empty error string. -/
def resOk (env : PageEnv) (r : ActionResult) : Prop :=
  r.before_url = env.urlBefore ∧ r.after_url = env.urlAfter ∧
    (r.success = false → ∃ m, r.error = some m ∧ m ≠ "")

/-- All primitive operations of a page environment are well formed in the
sense of `primOk`. -/
structure MsgsOk (env : PageEnv) : Prop where
  gotoOk : ∀ u, primOk (env.gotoOp u)
  waitSelOk : ∀ s, primOk (env.waitForSelector s)
  scrollIntoOk : ∀ e, primOk (env.scrollIntoViewOp e)
  clickOk : ∀ e, primOk (env.clickOp e)
  fillOk : ∀ e t, primOk (env.fillOp e t)
  selValOk : ∀ e v, primOk (env.selectByValue e v)
  selLabOk : ∀ e v, primOk (env.selectByLabel e v)
  hoverOk : ∀ e, primOk (env.hoverOp e)
  evalOk : ∀ s, primOk (env.evaluateOp s)
  pressOk : ∀ k, primOk (env.keyboardPress k)
  goBackOk : primOk env.goBackOp
  shotOk : ∀ f, primOk (env.screenshotOp f)

/-- Appending cannot erase a non-empty string. -/
theorem append_ne_empty (a b : String) (h : a.data ≠ []) : a ++ b ≠ "" := by
  intro hc
  have h2 : (a ++ b).data = [] := by rw [hc]
  rw [String.data_append] at h2
  exact h (List.append_eq_nil.mp h2).1

theorem navigateAct_resOk (env : PageEnv) (url : Option String)
    (h : ∀ u, primOk (env.gotoOp u)) : resOk env (navigateAct env url) := by
  have hu := h url
  unfold navigateAct navigateTry
  cases hg : env.gotoOp url with
  | ok a => simp [toExcept, okResult, resOk, Except.bind, Bind.bind, Except.map, Functor.map, pure, Except.pure]
  | exn m =>
      rw [hg] at hu
      simp only [primOk] at hu
      simp [toExcept, failResult, resOk, Except.bind, Bind.bind, Except.map, Functor.map, pure, Except.pure]
      exact hu

theorem clickAct_resOk (env : PageEnv) (sel : Option String)
    (h1 : ∀ s, primOk (env.waitForSelector s))
    (h2 : ∀ e, primOk (env.scrollIntoViewOp e))
    (h3 : ∀ e, primOk (env.clickOp e)) : resOk env (clickAct env sel) := by
  have hw := h1 sel
  unfold clickAct clickTry
  cases hg : env.waitForSelector sel with
  | exn m =>
      rw [hg] at hw
      simp only [primOk] at hw
      simp [toExcept, failResult, resOk, Except.bind, Bind.bind, Except.map, Functor.map, pure, Except.pure]
      exact hw
  | ok elem =>
      cases elem with
      | none => simp [toExcept, failResult, resOk, Except.bind, Bind.bind, Except.map, Functor.map, pure, Except.pure]
      | some el =>
          have hs := h2 el
          cases hso : env.scrollIntoViewOp el with
          | exn m =>
              rw [hso] at hs
              simp only [primOk] at hs
              simp [toExcept, failResult, resOk, hso, Except.bind, Bind.bind, Except.map, Functor.map, pure, Except.pure]
              exact hs
          | ok a =>
              have hc := h3 el
              cases hco : env.clickOp el with
              | exn m =>
                  rw [hco] at hc
                  simp only [primOk] at hc
                  simp [toExcept, failResult, resOk, hso, hco, Except.bind, Bind.bind, Except.map, Functor.map, pure, Except.pure]
                  exact hc
              | ok b => simp [toExcept, okResult, resOk, hso, hco, Except.bind, Bind.bind, Except.map, Functor.map, pure, Except.pure]

theorem typeAct_resOk (env : PageEnv) (sel text : Option String)
    (h1 : ∀ s, primOk (env.waitForSelector s))
    (h2 : ∀ e, primOk (env.clickOp e))
    (h3 : ∀ e t, primOk (env.fillOp e t)) : resOk env (typeAct env sel text) := by
  have hw := h1 sel
  unfold typeAct typeTry
  cases hg : env.waitForSelector sel with
  | exn m =>
      rw [hg] at hw
      simp only [primOk] at hw
      simp [toExcept, failResult, resOk, Except.bind, Bind.bind, Except.map, Functor.map, pure, Except.pure]
      exact hw
  | ok elem =>
      cases elem with
      | none => simp [toExcept, failResult, resOk, Except.bind, Bind.bind, Except.map, Functor.map, pure, Except.pure]
      | some el =>
          have hc := h2 el
          cases hco : env.clickOp el with
          | exn m =>
              rw [hco] at hc
              simp only [primOk] at hc
              simp [toExcept, failResult, resOk, hco, Except.bind, Bind.bind, Except.map, Functor.map, pure, Except.pure]
              exact hc
          | ok a =>
              have hf := h3 el ""
              cases hfo : env.fillOp el "" with
              | exn m =>
                  rw [hfo] at hf
                  simp only [primOk] at hf
                  simp [toExcept, failResult, resOk, hco, hfo, Except.bind, Bind.bind, Except.map, Functor.map, pure, Except.pure]
                  exact hf
              | ok b =>
                  cases text with
                  | none => simp [toExcept, failResult, resOk, hco, hfo, Except.bind, Bind.bind, Except.map, Functor.map, pure, Except.pure]
                  | some t =>
                      have hf2 := h3 el t
                      cases hfo2 : env.fillOp el t with
                      | exn m =>
                          rw [hfo2] at hf2
                          simp only [primOk] at hf2
                          simp [toExcept, failResult, resOk, hco, hfo, hfo2, Except.bind, Bind.bind, Except.map, Functor.map, pure, Except.pure]
                          exact hf2
                      | ok c => simp [toExcept, okResult, resOk, hco, hfo, hfo2, Except.bind, Bind.bind, Except.map, Functor.map, pure, Except.pure]

theorem selectAct_resOk (env : PageEnv) (sel value : Option String)
    (h1 : ∀ s, primOk (env.waitForSelector s))
    (h2 : ∀ e v, primOk (env.selectByLabel e v)) : resOk env (selectAct env sel value) := by
  have hw := h1 sel
  unfold selectAct selectTry
  cases hg : env.waitForSelector sel with
  | exn m =>
      rw [hg] at hw
      simp only [primOk] at hw
      simp [toExcept, failResult, resOk, Except.bind, Bind.bind, Except.map, Functor.map, pure, Except.pure]
      exact hw
  | ok elem =>
      cases elem with
      | none => simp [toExcept, failResult, resOk, Except.bind, Bind.bind, Except.map, Functor.map, pure, Except.pure]
      | some el =>
          cases hsv : env.selectByValue el value with
          | ok a => simp [toExcept, okResult, resOk, hsv, Except.bind, Bind.bind, Except.map, Functor.map, pure, Except.pure]
          | exn m =>
              have hl := h2 el value
              cases hso : env.selectByLabel el value with
              | exn m2 =>
                  rw [hso] at hl
                  simp only [primOk] at hl
                  simp [toExcept, failResult, resOk, hsv, hso, Except.bind, Bind.bind, Except.map, Functor.map, pure, Except.pure]
                  exact hl
              | ok b => simp [toExcept, okResult, resOk, hsv, hso, Except.bind, Bind.bind, Except.map, Functor.map, pure, Except.pure]

theorem scrollAct_resOk (env : PageEnv) (dir : Option String)
    (h : ∀ s, primOk (env.evaluateOp s)) : resOk env (scrollAct env dir) := by
  unfold scrollAct scrollTry
  by_cases hd : dir = some "down"
  case pos =>
    have he := h "window.scrollBy(0, 500)"
    cases hev : env.evaluateOp "window.scrollBy(0, 500)" with
    | ok a => simp [hd, hev, toExcept, okResult, resOk, Except.bind, Bind.bind, Except.map, Functor.map, pure, Except.pure]
    | exn m =>
        rw [hev] at he
        simp only [primOk] at he
        simp [hd, hev, toExcept, failResult, resOk, Except.bind, Bind.bind, Except.map, Functor.map, pure, Except.pure]
        exact he
  all_goals by_cases hu : dir = some "up"
  case pos =>
    have he := h "window.scrollBy(0, -500)"
    cases hev : env.evaluateOp "window.scrollBy(0, -500)" with
    | ok a => simp [hd, hu, hev, toExcept, okResult, resOk, Except.bind, Bind.bind, Except.map, Functor.map, pure, Except.pure]
    | exn m =>
        rw [hev] at he
        simp only [primOk] at he
        simp [hd, hu, hev, toExcept, failResult, resOk, Except.bind, Bind.bind, Except.map, Functor.map, pure, Except.pure]
        exact he
  all_goals by_cases ht : dir = some "top"
  case pos =>
    have he := h "window.scrollTo(0, 0)"
    cases hev : env.evaluateOp "window.scrollTo(0, 0)" with
    | ok a => simp [hd, hu, ht, hev, toExcept, okResult, resOk, Except.bind, Bind.bind, Except.map, Functor.map, pure, Except.pure]
    | exn m =>
        rw [hev] at he
        simp only [primOk] at he
        simp [hd, hu, ht, hev, toExcept, failResult, resOk, Except.bind, Bind.bind, Except.map, Functor.map, pure, Except.pure]
        exact he
  all_goals by_cases hb : dir = some "bottom"
  case pos =>
    have he := h "window.scrollTo(0, document.body.scrollHeight)"
    cases hev : env.evaluateOp "window.scrollTo(0, document.body.scrollHeight)" with
    | ok a => simp [hd, hu, ht, hb, hev, toExcept, okResult, resOk, Except.bind, Bind.bind, Except.map, Functor.map, pure, Except.pure]
    | exn m =>
        rw [hev] at he
        simp only [primOk] at he
        simp [hd, hu, ht, hb, hev, toExcept, failResult, resOk, Except.bind, Bind.bind, Except.map, Functor.map, pure, Except.pure]
        exact he
  case neg => simp [hd, hu, ht, hb, toExcept, okResult, resOk, Except.bind, Bind.bind, Except.map, Functor.map, pure, Except.pure]

theorem waitAct_resOk (env : PageEnv) (seconds : Option String) :
    resOk env (waitAct env seconds) := by
  unfold waitAct waitTry
  cases seconds with
  | none => simp [failResult, resOk, Except.bind, Bind.bind, Except.map, Functor.map, pure, Except.pure]
  | some s =>
      by_cases hf : pyFloatOk s = true
      case pos => simp [hf, okResult, resOk, Except.bind, Bind.bind, Except.map, Functor.map, pure, Except.pure]
      case neg =>
        simp [hf, failResult, resOk, Except.bind, Bind.bind, Except.map, Functor.map, pure, Except.pure]
        exact append_ne_empty "could not convert string to float: '" (s ++ "'") (by decide)

theorem pressKeyAct_resOk (env : PageEnv) (key : Option String)
    (h : ∀ k, primOk (env.keyboardPress k)) : resOk env (pressKeyAct env key) := by
  have hk := h key
  unfold pressKeyAct pressKeyTry
  cases hko : env.keyboardPress key with
  | ok a => simp [toExcept, okResult, resOk, Except.bind, Bind.bind, Except.map, Functor.map, pure, Except.pure]
  | exn m =>
      rw [hko] at hk
      simp only [primOk] at hk
      simp [toExcept, failResult, resOk, Except.bind, Bind.bind, Except.map, Functor.map, pure, Except.pure]
      exact hk

theorem hoverAct_resOk (env : PageEnv) (sel : Option String)
    (h1 : ∀ s, primOk (env.waitForSelector s))
    (h2 : ∀ e, primOk (env.hoverOp e)) : resOk env (hoverAct env sel) := by
  have hw := h1 sel
  unfold hoverAct hoverTry
  cases hg : env.waitForSelector sel with
  | exn m =>
      rw [hg] at hw
      simp only [primOk] at hw
      simp [toExcept, failResult, resOk, Except.bind, Bind.bind, Except.map, Functor.map, pure, Except.pure]
      exact hw
  | ok elem =>
      cases elem with
      | none => simp [toExcept, failResult, resOk, Except.bind, Bind.bind, Except.map, Functor.map, pure, Except.pure]
      | some el =>
          have hh := h2 el
          cases hho : env.hoverOp el with
          | exn m =>
              rw [hho] at hh
              simp only [primOk] at hh
              simp [toExcept, failResult, resOk, hho, Except.bind, Bind.bind, Except.map, Functor.map, pure, Except.pure]
              exact hh
          | ok a => simp [toExcept, okResult, resOk, hho, Except.bind, Bind.bind, Except.map, Functor.map, pure, Except.pure]

theorem goBackAct_resOk (env : PageEnv) (h : primOk env.goBackOp) :
    resOk env (goBackAct env) := by
  unfold goBackAct goBackTry
  cases hgo : env.goBackOp with
  | ok a => simp [toExcept, okResult, resOk, Except.bind, Bind.bind, Except.map, Functor.map, pure, Except.pure]
  | exn m =>
      rw [hgo] at h
      simp only [primOk] at h
      simp [toExcept, failResult, resOk, Except.bind, Bind.bind, Except.map, Functor.map, pure, Except.pure]
      exact h

theorem screenshotAct_resOk (env : PageEnv) (histLen : Nat) (filename : Option String)
    (h : ∀ f, primOk (env.screenshotOp f)) :
    resOk env (screenshotAct env histLen filename) := by
  have hs := h (screenshotName histLen filename)
  unfold screenshotAct screenshotTry
  cases hso : env.screenshotOp (screenshotName histLen filename) with
  | ok a => simp [toExcept, okResult, resOk, hso, Except.bind, Bind.bind, Except.map, Functor.map, pure, Except.pure]
  | exn m =>
      rw [hso] at hs
      simp only [primOk] at hs
      simp [toExcept, failResult, resOk, hso, Except.bind, Bind.bind, Except.map, Functor.map, pure, Except.pure]
      exact hs

/-- Claim C2: for every action kind of the closed vocabulary and every
outcome of the underlying page operations, `BrowserTools.execute` is total
(it is a Lean function, so it never raises), its result's `before_url` and
`after_url` are the page-location reads, any failed result carries a
non-empty error string, and the result is appended to the action history. -/
theorem claim_C2 (env : PageEnv) (history : List ActionResult) (action : Action)
    (h : MsgsOk env) :
    (execute env history action).1.before_url = env.urlBefore ∧
    (execute env history action).1.after_url = env.urlAfter ∧
    ((execute env history action).1.success = false →
      ∃ m, (execute env history action).1.error = some m ∧ m ≠ "") ∧
    (execute env history action).2 = history ++ [(execute env history action).1] := by
  have hr : resOk env (execute env history action).1 := by
    rcases action with ⟨kind, sel, val, rsn⟩
    cases kind with
    | navigate => exact navigateAct_resOk env val h.gotoOk
    | click => exact clickAct_resOk env sel h.waitSelOk h.scrollIntoOk h.clickOk
    | type => exact typeAct_resOk env sel val h.waitSelOk h.clickOk h.fillOk
    | select => exact selectAct_resOk env sel val h.waitSelOk h.selLabOk
    | scroll => exact scrollAct_resOk env val h.evalOk
    | wait => exact waitAct_resOk env val
    | press_key => exact pressKeyAct_resOk env val h.pressOk
    | hover => exact hoverAct_resOk env sel h.waitSelOk h.hoverOk
    | go_back => exact goBackAct_resOk env h.goBackOk
    | screenshot => exact screenshotAct_resOk env history.length val h.shotOk
    | done => exact ⟨rfl, rfl, by simp [execute]⟩
  exact ⟨hr.1, hr.2.1, hr.2.2, rfl⟩

/-- Concrete page environment: every selector lookup times out with the
standard Playwright message; all other primitives succeed. -/
def pageEnv0 : PageEnv :=
  { urlBefore := "https://library.cnu.ac.kr"
    urlAfter := "https://library.cnu.ac.kr"
    gotoOp := fun _ => .ok ()
    waitForSelector := fun _ => .exn "Timeout 10000ms exceeded."
    scrollIntoViewOp := fun _ => .ok ()
    clickOp := fun _ => .ok ()
    fillOp := fun _ _ => .ok ()
    selectByValue := fun _ _ => .ok ()
    selectByLabel := fun _ _ => .ok ()
    hoverOp := fun _ => .ok ()
    evaluateOp := fun _ => .ok ()
    keyboardPress := fun _ => .ok ()
    goBackOp := .ok ()
    screenshotOp := fun _ => .ok () }

theorem pageEnv0_msgsOk : MsgsOk pageEnv0 where
  gotoOk := fun _ => trivial
  waitSelOk := fun _ => by
    show ("Timeout 10000ms exceeded." : String) ≠ ""
    decide
  scrollIntoOk := fun _ => trivial
  clickOk := fun _ => trivial
  fillOk := fun _ _ => trivial
  selValOk := fun _ _ => trivial
  selLabOk := fun _ _ => trivial
  hoverOk := fun _ => trivial
  evalOk := fun _ => trivial
  pressOk := fun _ => trivial
  goBackOk := trivial
  shotOk := fun _ => trivial

/-- Witness for claim C2: a `click` on a selector that times out returns a
populated failed result; the hypothesis is discharged on `pageEnv0`. -/
theorem claim_C2_witness :
    (execute pageEnv0 [] ⟨ActionType.click, some "#missing", none, ""⟩).1.before_url =
        "https://library.cnu.ac.kr" ∧
    ((execute pageEnv0 [] ⟨ActionType.click, some "#missing", none, ""⟩).1.success = false →
      ∃ m, (execute pageEnv0 [] ⟨ActionType.click, some "#missing", none, ""⟩).1.error =
          some m ∧ m ≠ "") := by
  have h := claim_C2 pageEnv0 [] ⟨ActionType.click, some "#missing", none, ""⟩ pageEnv0_msgsOk
  exact ⟨h.1, h.2.2.1⟩

/-! ## Claims C7 and C8 -/

/-- Names of the known 11-kind action vocabulary (the keys of
`action_type_map`). -/
def knownActionNames : List String :=
  ["navigate", "click", "type", "select", "scroll", "wait", "press_key", "hover",
   "go_back", "screenshot", "done"]

/-- Claim C7: an action dictionary whose (case-normalized, as the code
lower-cases before lookup) action name is outside the known 11-kind
vocabulary parses to a `wait` action carrying the dictionary's selector,
value and reason; `parse_action_from_dict` is total, so it never raises. -/
theorem claim_C7 (d : ActionDict)
    (h : pyLower (d.action.getD "") ∉ knownActionNames) :
    parse_action_from_dict d =
      { action_type := ActionType.wait
        selector := d.selector
        value := d.value
        reason := d.reason.getD "" } := by
  unfold parse_action_from_dict
  have hmem := h
  simp only [knownActionNames, List.mem_cons, List.not_mem_nil, not_or] at hmem
  obtain ⟨h1, h2, h3, h4, h5, h6, h7, h8, h9, h10, h11, -⟩ := hmem
  have hl : actionTypeMap.lookup (pyLower (d.action.getD "")) = none := by
    simp [actionTypeMap, List.lookup, beq_eq_false_iff_ne.mpr h1, beq_eq_false_iff_ne.mpr h2,
      beq_eq_false_iff_ne.mpr h3, beq_eq_false_iff_ne.mpr h4, beq_eq_false_iff_ne.mpr h5,
      beq_eq_false_iff_ne.mpr h6, beq_eq_false_iff_ne.mpr h7, beq_eq_false_iff_ne.mpr h8,
      beq_eq_false_iff_ne.mpr h9, beq_eq_false_iff_ne.mpr h10, beq_eq_false_iff_ne.mpr h11]
  simp [hl]

/-- Witness for claim C7: the unknown name `frobnicate` parses to a `wait`
action that keeps the dictionary's fields. -/
theorem claim_C7_witness :
    pyLower ((some "frobnicate" : Option String).getD "") ∉ knownActionNames ∧
    parse_action_from_dict ⟨some "frobnicate", some "#x", some "v", some "why", false⟩ =
      { action_type := ActionType.wait
        selector := some "#x"
        value := some "v"
        reason := "why" } :=
  ⟨by decide, claim_C7 ⟨some "frobnicate", some "#x", some "v", some "why", false⟩ (by decide)⟩

/-- Claim C8: every `_post_summary` result has `completed_actions` built
from exactly the successful non-`wait` StepRecords, restricted to the most
recent five and formatted `"<action>: <selector-or-value>"`, with
`page_type` the literal `"unknown"`, empty `learned_rules`, and empty
`next_expected`. -/
theorem claim_C8 (history : List StepRecord) (url : String) :
    (post_summary history url).url = url ∧
    (post_summary history url).page_type = "unknown" ∧
    (post_summary history url).learned_rules = [] ∧
    (post_summary history url).next_expected = "" ∧
    (post_summary history url).completed_actions =
      (lastFive (history.filter postFilter)).map completedFormat ∧
    (post_summary history url).completed_actions.length ≤ 5 ∧
    ∀ s ∈ (post_summary history url).completed_actions,
      ∃ r ∈ history, r.success = true ∧ r.action.action ≠ some "wait" ∧
        s = completedFormat r := by
  refine ⟨rfl, rfl, rfl, rfl, rfl, ?_, ?_⟩
  · show ((lastFive (history.filter postFilter)).map completedFormat).length ≤ 5
    rw [List.length_map]
    unfold lastFive
    rw [List.length_drop]
    omega
  · intro s hs
    rw [show (post_summary history url).completed_actions =
        (lastFive (history.filter postFilter)).map completedFormat from rfl] at hs
    obtain ⟨r, hr, hfmt⟩ := List.mem_map.mp hs
    have hr2 : r ∈ history.filter postFilter := List.drop_subset _ _ hr
    have hr3 := List.mem_filter.mp hr2
    have hp := hr3.2
    unfold postFilter at hp
    simp only [Bool.and_eq_true, decide_eq_true_eq] at hp
    exact ⟨r, hr3.1, hp.1, hp.2, hfmt.symm⟩

/-- Concrete step history for the C8 witness: one successful click, one
successful wait, one failed click. -/
def hist8 : List StepRecord :=
  [{ step := 1, thought := "t1", action := ⟨some "click", some "#a", none, none, false⟩,
     observation := "ok", success := true, timestamp := "x" },
   { step := 2, thought := "t2", action := ⟨some "wait", none, some "1", none, false⟩,
     observation := "ok", success := true, timestamp := "x" },
   { step := 3, thought := "t3", action := ⟨some "click", some "#b", none, none, false⟩,
     observation := "no", success := false, timestamp := "x" }]

/-- Witness for claim C8: on `hist8` the summary keeps only the successful
non-wait click. -/
theorem claim_C8_witness :
    (post_summary hist8 "https://u").page_type = "unknown" ∧
    (post_summary hist8 "https://u").completed_actions = ["click: #a"] ∧
    ∀ s ∈ (post_summary hist8 "https://u").completed_actions,
      ∃ r ∈ hist8, r.success = true ∧ r.action.action ≠ some "wait" ∧
        s = completedFormat r :=
  ⟨(claim_C8 hist8 "https://u").2.1, by decide,
   (claim_C8 hist8 "https://u").2.2.2.2.2.2⟩

/-! ## Claim C6 — renderer truncation -/

theorem headData_append (a b : String) (c : Char) (h : ∃ t, a.data = c :: t) :
    ∃ t, (a ++ b).data = c :: t := by
  obtain ⟨t, ht⟩ := h
  exact ⟨t ++ b.data, by rw [String.data_append, ht]; rfl⟩

theorem isMoreLine_false_of_head (s : String) (c : Char) (hne : c ≠ '.')
    (h : ∃ t, s.data = c :: t) : isMoreLine s = false := by
  obtain ⟨t, ht⟩ := h
  unfold isMoreLine
  rw [ht]
  split
  next heq =>
    rw [List.cons.injEq] at heq
    exact absurd heq.1 hne
  next => rfl

theorem isMoreLine_hdr1 : isMoreLine "=== Page Snapshot ===" = false := by decide

theorem isMoreLine_hdr2 : isMoreLine "" = false := rfl

theorem isMoreLine_hdr3 : isMoreLine "=== Interactive Elements ===" = false := by decide

theorem isMoreLine_hdr4 : isMoreLine "=== Forms ===" = false := by decide

theorem isMoreLine_url (u : String) : isMoreLine ("URL: " ++ u) = false := by
  unfold isMoreLine; rw [String.data_append]; rfl

theorem isMoreLine_title (t : String) : isMoreLine ("Title: " ++ t) = false := by
  unfold isMoreLine; rw [String.data_append]; rfl

theorem isMoreLine_pageType (p : String) : isMoreLine ("Page Type: " ++ p) = false := by
  unfold isMoreLine; rw [String.data_append]; rfl

theorem isMoreLine_moreLine (n : Nat) : isMoreLine (moreLine n) = true := by
  unfold isMoreLine moreLine; rw [String.data_append, String.data_append]; rfl

theorem elemDesc_head (e : ElementInfo) : ∃ t, (elemDesc e).data = '[' :: t := by
  unfold elemDesc
  dsimp only []
  repeat' split
  all_goals repeat' apply headData_append
  all_goals exact ⟨[], rfl⟩

theorem isMoreLine_elemDesc (e : ElementInfo) : isMoreLine (elemDesc e) = false :=
  isMoreLine_false_of_head _ '[' (by decide) (elemDesc_head e)

theorem formDesc_head (f : FormInfo) : ∃ t, (formDesc f).data = 'F' :: t := by
  unfold formDesc
  repeat' apply headData_append
  exact ⟨['o', 'r', 'm', ' '], rfl⟩

theorem isMoreLine_formDesc (f : FormInfo) : isMoreLine (formDesc f) = false :=
  isMoreLine_false_of_head _ 'F' (by decide) (formDesc_head f)

/-- Claim C6: `snapshot_to_text` is a pure function of its arguments (its
output is, definitionally, the join of `snapshotLines`, so equal inputs give
the identical string), and its line list contains exactly one
truncation-style line when `max_elements` is exceeded — the line
`"... and N more elements"` with `N = len(elements) - max_elements` — and
none otherwise. -/
theorem claim_C6 (s : PageSnapshot) (m : Nat) :
    snapshot_to_text s m = String.intercalate "\n" (snapshotLines s m) ∧
    (snapshotLines s m).countP isMoreLine =
      (if m < s.elements.length then 1 else 0) ∧
    (m < s.elements.length →
      moreLine (s.elements.length - m) ∈ snapshotLines s m) := by
  refine ⟨rfl, ?_, ?_⟩
  · unfold snapshotLines
    rw [List.countP_append, List.countP_append, List.countP_append]
    have hA : List.countP isMoreLine
        ["=== Page Snapshot ===", "URL: " ++ s.url, "Title: " ++ s.title,
         "Page Type: " ++ s.page_type, "", "=== Interactive Elements ==="] = 0 := by
      simp [List.countP_cons, isMoreLine_url, isMoreLine_title, isMoreLine_pageType,
        isMoreLine_hdr1, isMoreLine_hdr2, isMoreLine_hdr3]
    have hB : List.countP isMoreLine ((s.elements.take m).map elemDesc) = 0 := by
      refine List.countP_eq_zero.mpr ?_
      intro a ha
      obtain ⟨e, _, rfl⟩ := List.mem_map.mp ha
      simp [isMoreLine_elemDesc e]
    have hC : List.countP isMoreLine
        (if m < s.elements.length then [moreLine (s.elements.length - m)] else []) =
        (if m < s.elements.length then 1 else 0) := by
      split
      · simp [List.countP_cons, isMoreLine_moreLine]
      · rfl
    have hD : List.countP isMoreLine
        (if s.forms ≠ [] then "" :: "=== Forms ===" :: s.forms.map formDesc else []) = 0 := by
      split
      · have hmap : List.countP isMoreLine (s.forms.map formDesc) = 0 := by
          refine List.countP_eq_zero.mpr ?_
          intro a ha
          obtain ⟨f, _, rfl⟩ := List.mem_map.mp ha
          simp [isMoreLine_formDesc f]
        simp [List.countP_cons, isMoreLine_hdr2, isMoreLine_hdr4, hmap]
      · rfl
    rw [hA, hB, hC, hD]
    omega
  · intro hm
    unfold snapshotLines
    have hmem : moreLine (s.elements.length - m) ∈
        (if m < s.elements.length then [moreLine (s.elements.length - m)] else []) := by
      simp [hm]
    exact List.mem_append.mpr (Or.inl (List.mem_append.mpr (Or.inr hmem)))

/-- Concrete snapshot with three elements for the C6 witness. -/
def snap6 : PageSnapshot :=
  { url := "https://library.cnu.ac.kr"
    title := "CNU Library"
    elements :=
      [{ index := 1, tag := "a", role := "", text := "Login", href := some "/login",
         placeholder := none, value := none, bbox := ⟨0, 0, 10, 10⟩, selector := "a.login",
         is_clickable := true, is_editable := false, is_visible := true, attributes := [] },
       { index := 2, tag := "input", role := "", text := "", href := none,
         placeholder := some "search", value := none, bbox := ⟨0, 20, 100, 10⟩,
         selector := "input[name='q']", is_clickable := false, is_editable := true,
         is_visible := true, attributes := [] },
       { index := 3, tag := "button", role := "button", text := "Go", href := none,
         placeholder := none, value := none, bbox := ⟨0, 40, 10, 10⟩,
         selector := "button.go", is_clickable := true, is_editable := false,
         is_visible := true, attributes := [] }]
    forms := []
    page_type := "search_page"
    summary := "" }

/-- Witness for claim C6: rendering `snap6` with `max_elements = 1` emits
exactly one truncation line, namely `"... and 2 more elements"`. -/
theorem claim_C6_witness :
    (snapshotLines snap6 1).countP isMoreLine = 1 ∧
    moreLine 2 ∈ snapshotLines snap6 1 :=
  ⟨by simpa using (claim_C6 snap6 1).2.1, (claim_C6 snap6 1).2.2 (by decide)⟩

/-! ## Loop invariants (claims C1, C3, C4, C5, C10) -/

theorem loopGo_hist_le (env : AgentEnv) : ∀ (fuel : Nat) (st : LoopState),
    ((loopGo env fuel st).step_history).length ≤ st.step_history.length + fuel := by
  intro fuel
  induction fuel with
  | zero => intro st; simp [loopGo]
  | succ n ih =>
      intro st
      rw [loopGo]
      by_cases hrun : st.is_running = false
      · rw [if_pos hrun]; exact Nat.le_add_right _ _
      · rw [if_neg hrun]
        dsimp only []
        cases hpre : (preAnalysis env (st.step + 1)).1 with
        | none => simp
        | some snap =>
            dsimp only []
            cases hsel : select_action_parse env.decode (env.llm (st.step + 1)) with
            | none => simp
            | some d =>
                dsimp only []
                by_cases hne : d.nonempty = false
                · simp [hne]
                · rw [if_neg hne]
                  by_cases hdone : (parse_action_from_dict d).action_type = ActionType.done
                  · rw [if_pos hdone]
                    simp [List.length_append]
                  · rw [if_neg hdone]
                    refine le_trans (ih _) ?_
                    simp [List.length_append]
                    omega

theorem loopGo_summaries_mono (env : AgentEnv) : ∀ (fuel : Nat) (st : LoopState),
    ∃ t, (loopGo env fuel st).page_summaries = st.page_summaries ++ t := by
  intro fuel
  induction fuel with
  | zero => intro st; exact ⟨[], by simp [loopGo]⟩
  | succ n ih =>
      intro st
      rw [loopGo]
      by_cases hrun : st.is_running = false
      · rw [if_pos hrun]; exact ⟨[], by simp⟩
      · rw [if_neg hrun]
        dsimp only []
        cases hpre : (preAnalysis env (st.step + 1)).1 with
        | none =>
            refine ⟨if st.last_url ≠ "" ∧ env.urlTop (st.step + 1) ≠ st.last_url then
              [post_summary st.step_history st.last_url] else [], ?_⟩
            dsimp only []
            split <;> simp
        | some snap =>
            dsimp only []
            cases hsel : select_action_parse env.decode (env.llm (st.step + 1)) with
            | none =>
                refine ⟨if st.last_url ≠ "" ∧ env.urlTop (st.step + 1) ≠ st.last_url then
                  [post_summary st.step_history st.last_url] else [], ?_⟩
                dsimp only []
                split <;> simp
            | some d =>
                dsimp only []
                by_cases hne : d.nonempty = false
                · rw [if_pos hne]
                  refine ⟨if st.last_url ≠ "" ∧ env.urlTop (st.step + 1) ≠ st.last_url then
                    [post_summary st.step_history st.last_url] else [], ?_⟩
                  dsimp only []
                  split <;> simp
                · rw [if_neg hne]
                  by_cases hdone : (parse_action_from_dict d).action_type = ActionType.done
                  · rw [if_pos hdone]
                    refine ⟨if st.last_url ≠ "" ∧ env.urlTop (st.step + 1) ≠ st.last_url then
                      [post_summary st.step_history st.last_url] else [], ?_⟩
                    dsimp only []
                    split <;> simp
                  · rw [if_neg hdone]
                    obtain ⟨t, ht⟩ := ih _
                    refine ⟨(if st.last_url ≠ "" ∧ env.urlTop (st.step + 1) ≠ st.last_url then
                      [post_summary st.step_history st.last_url] else []) ++ t, ?_⟩
                    rw [ht]
                    dsimp only []
                    split <;> simp

/-- Claim C4: the number of StepRecords recorded during one `run` never
exceeds `max_steps` (the step history is reset at entry, so the result's
`history` is exactly the records appended during the run). -/
theorem claim_C4 (cfg : AgentConfig) (env : AgentEnv) (s₀ : AgentState) (goal : String)
    (u : Option String) :
    (run cfg env s₀ goal u).1.history.length ≤ cfg.max_steps := by
  have h := loopGo_hist_le env cfg.max_steps
    { step := 0, last_url := "", step_history := [],
      page_summaries := s₀.page_summaries, is_running := true,
      trace :=
        match u with
        | some v => [(0, ⟨ActionType.navigate, none, some v, ""⟩)]
        | none => [] }
  simpa [run] using h

/-- Claim C10: `run` resets the step history and goal at entry but never
clears `page_summaries`: every summary present before the call is still
present (as a prefix) in the result and in the post-run state, and the run's
outcome depends on the prior agent state only through `page_summaries`. -/
theorem claim_C10 (cfg : AgentConfig) (env : AgentEnv) (s₀ s₁ : AgentState) (goal : String)
    (u : Option String) (h : s₀.page_summaries = s₁.page_summaries) :
    (∃ t, (run cfg env s₀ goal u).1.page_summaries = s₀.page_summaries ++ t) ∧
    (∀ ps ∈ s₀.page_summaries, ps ∈ (run cfg env s₀ goal u).1.page_summaries) ∧
    (run cfg env s₀ goal u).2.1.page_summaries = (run cfg env s₀ goal u).1.page_summaries ∧
    run cfg env s₁ goal u = run cfg env s₀ goal u := by
  have hmono := loopGo_summaries_mono env cfg.max_steps
    { step := 0, last_url := "", step_history := [],
      page_summaries := s₀.page_summaries, is_running := true,
      trace :=
        match u with
        | some v => [(0, ⟨ActionType.navigate, none, some v, ""⟩)]
        | none => [] }
  obtain ⟨t, ht⟩ := hmono
  refine ⟨⟨t, by simpa [run] using ht⟩, ?_, rfl, ?_⟩
  · intro ps hps
    have : (run cfg env s₀ goal u).1.page_summaries = s₀.page_summaries ++ t := by
      simpa [run] using ht
    rw [this]
    exact List.mem_append_left _ hps
  · simp [run, h]

/-- Concrete snapshot-success, garbage-LLM environment for C1. -/
def envG : AgentEnv :=
  { attempt := fun _ _ => some snap6
    llm := fun _ => "garbage with no json"
    decode := fun _ => none
    exec := fun _ a =>
      { success := true, message := "ok", action := a,
        before_url := "https://x", after_url := "https://x" }
    urlTop := fun _ => "https://x"
    urlFinal := "https://x"
    timeAt := fun _ => "2026-01-01T00:00:00" }

/-- Fresh agent state. -/
def agent0 : AgentState :=
  { step_history := [], page_summaries := [], current_goal := "", is_running := false }

/-- Two-step configuration. -/
def cfgC1 : AgentConfig := { max_steps := 2 }

/-- Counterexample for claim C1: with `max_steps = 2`, a selection failure
on step 1 aborts with `steps = 1` and an empty history, but `success` is
`true` (the abort path leaves `is_running` set, and `1 < max_steps`), not
`false` as the claim states. -/
theorem claim_C1_counterexample :
    (run cfgC1 envG agent0 "goal" none).1.steps = 1 ∧
    (run cfgC1 envG agent0 "goal" none).1.history = [] ∧
    (run cfgC1 envG agent0 "goal" none).1.success = true := by
  refine ⟨rfl, rfl, rfl⟩

/-- Claim C1 (amended): when the step-1 LLM response yields no parseable
JSON object, `run` aborts immediately with `steps = 1` and an empty history
(no StepRecord is appended), but — because this abort path does not clear
`is_running` — the reported `success` equals `1 < max_steps`, which is
`false` only when `max_steps = 1`. -/
theorem claim_C1 (cfg : AgentConfig) (env : AgentEnv) (s₀ : AgentState) (goal : String)
    (u : Option String) (hms : 1 ≤ cfg.max_steps)
    (hsnap : (preAnalysis env 1).1.isSome = true)
    (hsel : select_action_parse env.decode (env.llm 1) = none) :
    (run cfg env s₀ goal u).1.steps = 1 ∧
    (run cfg env s₀ goal u).1.history = [] ∧
    (run cfg env s₀ goal u).1.success = decide (1 < cfg.max_steps) := by
  obtain ⟨f, hf⟩ : ∃ f, cfg.max_steps = f + 1 := ⟨cfg.max_steps - 1, by omega⟩
  obtain ⟨snap, hsnapEq⟩ := Option.isSome_iff_exists.mp hsnap
  unfold run
  dsimp only []
  rw [hf]
  rw [loopGo]
  simp [hsnapEq, hsel, hf]

/-- Witness for the amended claim C1, on the concrete garbage-LLM
environment `envG`. -/
theorem claim_C1_witness :
    (run cfgC1 envG agent0 "goal" none).1.steps = 1 ∧
    (run cfgC1 envG agent0 "goal" none).1.history = [] ∧
    (run cfgC1 envG agent0 "goal" none).1.success = decide (1 < cfgC1.max_steps) :=
  claim_C1 cfgC1 envG agent0 "goal" none (by decide) (by decide) (by rfl)

/-! ## Claim C3 — snapshot retry budget -/

/-- Environment whose snapshot extraction always raises. -/
def envFail : AgentEnv :=
  { attempt := fun _ _ => none
    llm := fun _ => ""
    decode := fun _ => none
    exec := fun _ a =>
      { success := true, message := "ok", action := a, before_url := "", after_url := "" }
    urlTop := fun _ => ""
    urlFinal := ""
    timeAt := fun _ => "" }

/-- Configuration carrying `max_retries = 1`. -/
def cfgR1 : AgentConfig := { max_retries := 1 }

/-- Counterexample for claim C3: with `max_retries = 1` in the config and
every extraction attempt failing, the pre-analysis loop still makes 3
attempts — the loop bound is the hardcoded literal `range(3)`, not
`config.max_retries`. -/
theorem claim_C3_counterexample :
    ¬ ((preAnalysis envFail 1).2 ≤ cfgR1.max_retries) := by decide

/-- Claim C3 (amended): the pre-analysis phase attempts snapshot extraction
up to a hardcoded 3 times (ignoring the `max_retries` carried in
AgentConfig), waiting for the content-parsed signal before each attempt and
pausing between retries; if all 3 attempts fail on step 1 the run aborts
with no StepRecord recorded. -/
theorem claim_C3 (cfg : AgentConfig) (env : AgentEnv) (s₀ : AgentState) (goal : String)
    (u : Option String) (step : Nat) (hms : 1 ≤ cfg.max_steps)
    (hfail : ∀ r, r < 3 → env.attempt 1 r = none) :
    (preAnalysis env step).2 ≤ 3 ∧
    (preAnalysis env 1).1 = none ∧
    (preAnalysis env 1).2 = 3 ∧
    (run cfg env s₀ goal u).1.steps = 1 ∧
    (run cfg env s₀ goal u).1.history = [] := by
  have h0 := hfail 0 (by omega)
  have h1 := hfail 1 (by omega)
  have h2 := hfail 2 (by omega)
  have hpre1 : preAnalysis env 1 = (none, 3) := by
    unfold preAnalysis
    rw [h0, h1, h2]
  have hcount : (preAnalysis env step).2 ≤ 3 := by
    unfold preAnalysis
    cases env.attempt step 0 with
    | some s => simp
    | none =>
        cases env.attempt step 1 with
        | some s => simp
        | none => cases env.attempt step 2 with
            | some s => simp
            | none => simp
  obtain ⟨f, hf⟩ : ∃ f, cfg.max_steps = f + 1 := ⟨cfg.max_steps - 1, by omega⟩
  have hrunEval : (run cfg env s₀ goal u).1.steps = 1 ∧
      (run cfg env s₀ goal u).1.history = [] := by
    unfold run
    dsimp only []
    rw [hf]
    rw [loopGo]
    simp [hpre1]
  exact ⟨hcount, by rw [hpre1], by rw [hpre1], hrunEval.1, hrunEval.2⟩

/-- Witness for the amended claim C3 on the always-failing environment. -/
theorem claim_C3_witness :
    (preAnalysis envFail 5).2 ≤ 3 ∧
    (preAnalysis envFail 1).1 = none ∧
    (run cfgR1 envFail agent0 "g" none).1.steps = 1 ∧
    (run cfgR1 envFail agent0 "g" none).1.history = [] := by
  have h := claim_C3 cfgR1 envFail agent0 "g" none 5 (by decide) (fun r _ => rfl)
  exact ⟨h.1, h.2.1, h.2.2.2.1, h.2.2.2.2⟩

/-! ## Claim C5 — done terminates the loop -/

theorem loopGo_done_spec (env : AgentEnv) : ∀ (fuel : Nat) (st : LoopState),
    (∀ p ∈ st.trace, (Prod.snd p).action_type ≠ ActionType.done) →
    (∀ p ∈ st.trace, Prod.fst p ≤ st.step) →
    ∀ i a, (i, a) ∈ (loopGo env fuel st).trace → a.action_type = ActionType.done →
      (loopGo env fuel st).step = i ∧
      (loopGo env fuel st).trace.getLast? = some (i, a) ∧
      (∀ q ∈ (loopGo env fuel st).trace, Prod.fst q ≤ i) ∧
      ∃ h' r, (loopGo env fuel st).step_history = h' ++ [r] ∧ r.step = i ∧
        (parse_action_from_dict r.action).action_type = ActionType.done := by
  intro fuel
  induction fuel with
  | zero =>
      intro st hnd hle i a hmem hdone
      rw [loopGo] at hmem
      exact absurd hdone (hnd (i, a) hmem)
  | succ n ih =>
      intro st hnd hle
      rw [loopGo]
      by_cases hrun : st.is_running = false
      · rw [if_pos hrun]
        intro i a hmem hdone
        exact absurd hdone (hnd (i, a) hmem)
      · rw [if_neg hrun]
        dsimp only []
        cases hpre : (preAnalysis env (st.step + 1)).1 with
        | none =>
            dsimp only []
            intro i a hmem hdone
            exact absurd hdone (hnd (i, a) hmem)
        | some snap =>
            dsimp only []
            cases hsel : select_action_parse env.decode (env.llm (st.step + 1)) with
            | none =>
                dsimp only []
                intro i a hmem hdone
                exact absurd hdone (hnd (i, a) hmem)
            | some d =>
                dsimp only []
                by_cases hne : d.nonempty = false
                · rw [if_pos hne]
                  intro i a hmem hdone
                  exact absurd hdone (hnd (i, a) hmem)
                · rw [if_neg hne]
                  by_cases hda : (parse_action_from_dict d).action_type = ActionType.done
                  · rw [if_pos hda]
                    intro i a hmem hdone
                    dsimp only [] at hmem ⊢
                    rcases List.mem_append.mp hmem with hin | hin
                    · exact absurd hdone (hnd (i, a) hin)
                    · have heq : (i, a) = (st.step + 1, parse_action_from_dict d) := by
                        simpa using hin
                      have hi : i = st.step + 1 := congrArg Prod.fst heq
                      have ha : a = parse_action_from_dict d := congrArg Prod.snd heq
                      subst hi
                      subst ha
                      refine ⟨rfl, ?_, ?_, ?_⟩
                      · simp
                      · intro q hq
                        rcases List.mem_append.mp hq with hq1 | hq1
                        · exact le_trans (hle q hq1) (Nat.le_succ _)
                        · have : q = (st.step + 1, parse_action_from_dict d) := by
                            simpa using hq1
                          rw [this]
                      · exact ⟨st.step_history, _, rfl, rfl, hda⟩
                  · rw [if_neg hda]
                    refine ih _ ?_ ?_
                    · intro p hp
                      rcases List.mem_append.mp hp with h1 | h1
                      · exact hnd p h1
                      · have : p = (st.step + 1, parse_action_from_dict d) := by
                          simpa using h1
                        rw [this]
                        exact hda
                    · intro p hp
                      rcases List.mem_append.mp hp with h1 | h1
                      · exact le_trans (hle p h1) (Nat.le_succ _)
                      · have : p = (st.step + 1, parse_action_from_dict d) := by
                          simpa using h1
                        rw [this]

/-- Claim C5: whenever a `done`-kind action is executed at some iteration,
the loop terminates on that same iteration: the `done` action is the last
entry of the executed-action trace, every executed action belongs to an
earlier or equal step, the run's reported `steps` is that iteration, and the
iteration's StepRecord (whose action parses to `done`) is the last history
record. -/
theorem claim_C5 (cfg : AgentConfig) (env : AgentEnv) (s₀ : AgentState) (goal : String)
    (u : Option String) (i : Nat) (a : Action)
    (hmem : (i, a) ∈ (run cfg env s₀ goal u).2.2)
    (hdone : a.action_type = ActionType.done) :
    (run cfg env s₀ goal u).1.steps = i ∧
    (run cfg env s₀ goal u).2.2.getLast? = some (i, a) ∧
    (∀ q ∈ (run cfg env s₀ goal u).2.2, Prod.fst q ≤ i) ∧
    ∃ h' r, (run cfg env s₀ goal u).1.history = h' ++ [r] ∧ r.step = i ∧
      (parse_action_from_dict r.action).action_type = ActionType.done := by
  have hnd : ∀ p ∈ (match u with
      | some v => [((0 : Nat), (⟨ActionType.navigate, none, some v, ""⟩ : Action))]
      | none => ([] : List (Nat × Action))),
      (Prod.snd p).action_type ≠ ActionType.done := by
    cases u with
    | none => intro p hp; simp at hp
    | some v =>
        intro p hp
        simp at hp
        rw [hp]
        simp
  have hle : ∀ p ∈ (match u with
      | some v => [((0 : Nat), (⟨ActionType.navigate, none, some v, ""⟩ : Action))]
      | none => ([] : List (Nat × Action))),
      Prod.fst p ≤ 0 := by
    cases u with
    | none => intro p hp; simp at hp
    | some v =>
        intro p hp
        simp at hp
        rw [hp]
  have h := loopGo_done_spec env cfg.max_steps
    { step := 0, last_url := "", step_history := [],
      page_summaries := s₀.page_summaries, is_running := true,
      trace :=
        match u with
        | some v => [(0, ⟨ActionType.navigate, none, some v, ""⟩)]
        | none => [] } hnd hle i a (by simpa [run] using hmem) hdone
  exact ⟨by simpa [run] using h.1, by simpa [run] using h.2.1,
    by simpa [run] using h.2.2.1, by simpa [run] using h.2.2.2⟩

/-- Environment whose LLM answers with a `done` action on every step. -/
def envDone : AgentEnv :=
  { attempt := fun _ _ => some snap6
    llm := fun _ => "\x7b\x22action\x22: \x22done\x22\x7d"
    decode := fun s =>
      if s = "\x7b\x22action\x22: \x22done\x22\x7d" then
        some { action := some "done" }
      else none
    exec := fun _ a =>
      { success := true, message := "Task completed", action := a,
        before_url := "https://x", after_url := "https://x" }
    urlTop := fun _ => "https://x"
    urlFinal := "https://x"
    timeAt := fun _ => "2026-01-01T00:00:00" }

/-- Witness for claim C5: with `envDone` the run executes exactly the step-1
`done` action and stops there. -/
theorem claim_C5_witness :
    (1, (⟨ActionType.done, none, none, ""⟩ : Action)) ∈
      (run cfgC1 envDone agent0 "g" none).2.2 ∧
    (run cfgC1 envDone agent0 "g" none).1.steps = 1 ∧
    (run cfgC1 envDone agent0 "g" none).2.2.getLast? =
      some (1, (⟨ActionType.done, none, none, ""⟩ : Action)) := by
  have hmem : (1, (⟨ActionType.done, none, none, ""⟩ : Action)) ∈
      (run cfgC1 envDone agent0 "g" none).2.2 := by decide
  have h := claim_C5 cfgC1 envDone agent0 "g" none 1 ⟨ActionType.done, none, none, ""⟩
    hmem rfl
  exact ⟨hmem, h.1, h.2.1⟩

/-! ## Claim C9 — LLM-response extraction -/

/-- Flat brace pair: an opening brace, brace-free middle, closing brace —
the exact shape the `_select_action` regex can match. -/

def FlatBraced (cs : List Char) : Prop :=
  ∃ mid, cs = '\x7b' :: (mid ++ ['\x7d']) ∧ ∀ c ∈ mid, c ≠ '\x7b' ∧ c ≠ '\x7d'

theorem scanFlat_sound : ∀ (l mid : List Char), scanFlat l = some mid →
    (∀ c ∈ mid, c ≠ '\x7b' ∧ c ≠ '\x7d') ∧ ∃ suf, l = mid ++ '\x7d' :: suf := by
  intro l
  induction l with
  | nil => intro mid h; simp [scanFlat] at h
  | cons c rest ih =>
      intro mid h
      rw [scanFlat] at h
      by_cases h1 : c = '\x7d'
      · rw [if_pos h1] at h
        have hm : mid = [] := by simpa using h.symm
        subst hm
        exact ⟨by simp, ⟨rest, by simp [h1]⟩⟩
      · rw [if_neg h1] at h
        by_cases h2 : c = '\x7b'
        · rw [if_pos h2] at h
          simp at h
        · rw [if_neg h2] at h
          obtain ⟨mid', hmid', hm⟩ : ∃ mid', scanFlat rest = some mid' ∧ mid = c :: mid' := by
            cases hs : scanFlat rest with
            | none => rw [hs] at h; simp at h
            | some m => rw [hs] at h; simp at h; exact ⟨m, rfl, h.symm⟩
          subst hm
          obtain ⟨hfree, suf, hsuf⟩ := ih mid' hmid'
          refine ⟨?_, ⟨suf, by simp [hsuf]⟩⟩
          intro x hx
          rcases List.mem_cons.mp hx with rfl | hx2
          · exact ⟨h2, h1⟩
          · exact hfree x hx2

theorem scanFlat_complete : ∀ (l : List Char), scanFlat l = none →
    ∀ mid suf, (∀ c ∈ mid, c ≠ '\x7b' ∧ c ≠ '\x7d') → l ≠ mid ++ '\x7d' :: suf := by
  intro l
  induction l with
  | nil =>
      intro _ mid suf _ heq
      exact absurd heq (by simp)
  | cons c rest ih =>
      intro hnone mid suf hfree heq
      rw [scanFlat] at hnone
      cases mid with
      | nil =>
          simp at heq
          rw [if_pos heq.1] at hnone
          simp at hnone
      | cons m ms =>
          simp at heq
          obtain ⟨rfl, hrest⟩ := heq
          have hm := hfree c (by simp)
          rw [if_neg hm.2, if_neg hm.1] at hnone
          have hrec : scanFlat rest = none := by
            cases hs : scanFlat rest with
            | none => rfl
            | some x => rw [hs] at hnone; simp at hnone
          exact ih hrec ms suf (fun x hx => hfree x (by simp [hx])) hrest

theorem extractFlatAux_sound : ∀ (l cs : List Char), extractFlatAux l = some cs →
    FlatBraced cs ∧ ∃ pre suf, l = pre ++ cs ++ suf ∧
      ∀ pre' cs' suf', FlatBraced cs' → l = pre' ++ cs' ++ suf' →
        pre.length ≤ pre'.length := by
  intro l
  induction l with
  | nil => intro cs h; simp [extractFlatAux] at h
  | cons c rest ih =>
      intro cs h
      rw [extractFlatAux] at h
      by_cases hc : c = '\x7b'
      · rw [if_pos hc] at h
        cases hs : scanFlat rest with
        | some mid =>
            rw [hs] at h
            simp at h
            obtain ⟨hfree, suf, hsuf⟩ := scanFlat_sound rest mid hs
            refine ⟨?_, [], suf, ?_, ?_⟩
            · exact h ▸ ⟨mid, rfl, hfree⟩
            · rw [← h, hc, hsuf]; simp
            · intro pre' cs' suf' hflat' heq'
              simp
        | none =>
            rw [hs] at h
            obtain ⟨hflat, pre, suf, heq, hmin⟩ := ih cs h
            refine ⟨hflat, c :: pre, suf, by simp [heq], ?_⟩
            intro pre' cs' suf' hflat' heq'
            cases pre' with
            | nil =>
                obtain ⟨mid', hcs', hfree'⟩ := hflat'
                rw [hcs'] at heq'
                simp at heq'
                exact absurd heq'.2 (scanFlat_complete rest hs mid' suf' hfree')
            | cons p pre'' =>
                simp at heq'
                have := hmin pre'' cs' suf' hflat' (by rw [heq'.2, List.append_assoc])
                simp
                omega
      · rw [if_neg hc] at h
        obtain ⟨hflat, pre, suf, heq, hmin⟩ := ih cs h
        refine ⟨hflat, c :: pre, suf, by simp [heq], ?_⟩
        intro pre' cs' suf' hflat' heq'
        cases pre' with
        | nil =>
            obtain ⟨mid', hcs', hfree'⟩ := hflat'
            rw [hcs'] at heq'
            simp at heq'
            exact absurd heq'.1 hc
        | cons p pre'' =>
            simp at heq'
            have := hmin pre'' cs' suf' hflat' (by rw [heq'.2, List.append_assoc])
            simp
            omega

theorem extractFlatAux_complete : ∀ (l : List Char), extractFlatAux l = none →
    ∀ cs pre suf, FlatBraced cs → l ≠ pre ++ cs ++ suf := by
  intro l
  induction l with
  | nil =>
      intro _ cs pre suf hflat heq
      obtain ⟨mid, hcs, -⟩ := hflat
      rw [hcs] at heq
      exact absurd heq (by simp)
  | cons c rest ih =>
      intro hnone cs pre suf hflat heq
      rw [extractFlatAux] at hnone
      by_cases hc : c = '\x7b'
      · rw [if_pos hc] at hnone
        cases hs : scanFlat rest with
        | some mid => rw [hs] at hnone; simp at hnone
        | none =>
            rw [hs] at hnone
            cases pre with
            | nil =>
                obtain ⟨mid', hcs', hfree'⟩ := hflat
                rw [hcs'] at heq
                simp at heq
                exact absurd heq.2 (scanFlat_complete rest hs mid' suf hfree')
            | cons p pre' =>
                simp at heq
                exact ih hnone cs pre' suf hflat (by rw [heq.2, List.append_assoc])
      · rw [if_neg hc] at hnone
        cases pre with
        | nil =>
            obtain ⟨mid', hcs', hfree'⟩ := hflat
            rw [hcs'] at heq
            simp at heq
            exact absurd heq.1 hc
        | cons p pre' =>
            simp at heq
            exact ih hnone cs pre' suf hflat (by rw [heq.2, List.append_assoc])

/-- Claim C9 (amended): action-selection parsing extracts the first
(leftmost) `\x7b...\x7d` substring containing no brace inside — not the
first brace-balanced substring — and decodes it as a mapping; when no such
substring exists, or decoding fails, the result is a selection failure
(`none`), and the parser is a total function, so it never raises. -/
theorem claim_C9 (decode : String → Option ActionDict) (response : String) :
    (∀ cs, extractFlat response = some cs →
        FlatBraced cs ∧
        (∃ pre suf, response.data = pre ++ cs ++ suf ∧
          ∀ pre' cs' suf', FlatBraced cs' → response.data = pre' ++ cs' ++ suf' →
            pre.length ≤ pre'.length) ∧
        select_action_parse decode response = decode (String.mk cs)) ∧
    (extractFlat response = none →
        (∀ cs pre suf, FlatBraced cs → response.data ≠ pre ++ cs ++ suf) ∧
        select_action_parse decode response = none) ∧
    (∀ cs, extractFlat response = some cs → decode (String.mk cs) = none →
        select_action_parse decode response = none) := by
  refine ⟨?_, ?_, ?_⟩
  · intro cs h
    obtain ⟨hflat, pre, suf, heq, hmin⟩ := extractFlatAux_sound response.data cs h
    refine ⟨hflat, ⟨pre, suf, heq, hmin⟩, ?_⟩
    unfold select_action_parse
    rw [h]
  · intro h
    refine ⟨fun cs pre suf hflat => extractFlatAux_complete response.data h cs pre suf hflat, ?_⟩
    unfold select_action_parse
    rw [h]
  · intro cs h hdec
    unfold select_action_parse
    rw [h]
    dsimp only []
    exact hdec

/-- Nested-object response on which the regex extraction and the spec's
"first brace-balanced substring" differ. -/
def rsp9 : String := "\x7b\x22a\x22: \x7b\x22b\x22: 1\x7d\x7d"

/-- Decoder that records the substring it was given (any decoder
distinguishing the two substrings exhibits the discrepancy). -/
def decodeRecord : String → Option ActionDict := fun s => some { action := some s }

/-- Counterexample for claim C9: on the response `\x7b"a": \x7b"b": 1\x7d\x7d`
the code parses the inner flat pair `\x7b"b": 1\x7d`, while the first
brace-balanced substring is the whole object — so parsing does not extract
the first brace-balanced substring. -/
theorem claim_C9_counterexample :
    select_action_parse decodeRecord rsp9 ≠
      (extractBalanced rsp9.data).bind (fun cs => decodeRecord (String.mk cs)) ∧
    extractFlat rsp9 = some "\x7b\x22b\x22: 1\x7d".data ∧
    extractBalanced rsp9.data = some rsp9.data := by
  refine ⟨by decide, by decide, by decide⟩

/-- Response with two flat objects for the C9 witness. -/
def rsp9w : String := "noise \x7bok\x7d tail \x7bmore\x7d"

/-- Witness for the amended claim C9: the leftmost flat brace pair is
extracted and decoded, and a failing decoder yields a selection failure. -/
theorem claim_C9_witness :
    select_action_parse decodeRecord rsp9w = decodeRecord (String.mk "\x7bok\x7d".data) ∧
    FlatBraced "\x7bok\x7d".data ∧
    select_action_parse (fun _ => none) rsp9w = none := by
  have h := (claim_C9 decodeRecord rsp9w).1 "\x7bok\x7d".data (by decide)
  have h2 := (claim_C9 (fun _ => (none : Option ActionDict)) rsp9w).2.2
    "\x7bok\x7d".data (by decide) rfl
  exact ⟨h.2.2, h.1, h2⟩

/-! ## Witness for claim C10 -/

/-- Summary carried over from an earlier run. -/
def ps0 : PageSummary :=
  { url := "https://a", page_type := "unknown", completed_actions := ["click: #a"],
    learned_rules := [], next_expected := "" }

/-- Agent state left behind by an earlier run (stale step history and
goal). -/
def agentP : AgentState :=
  { step_history := hist8, page_summaries := [ps0], current_goal := "old goal",
    is_running := false }

/-- Agent state with the same summaries but different stale fields. -/
def agentQ : AgentState :=
  { step_history := [], page_summaries := [ps0], current_goal := "another goal",
    is_running := true }

/-- Witness for claim C10: the earlier run's summary survives into the next
run's result, and the result is insensitive to the stale step history and
goal. -/
theorem claim_C10_witness :
    (∃ t, (run cfgC1 envG agentP "g" none).1.page_summaries =
      agentP.page_summaries ++ t) ∧
    ps0 ∈ (run cfgC1 envG agentP "g" none).1.page_summaries ∧
    run cfgC1 envG agentQ "g" none = run cfgC1 envG agentP "g" none := by
  have h := claim_C10 cfgC1 envG agentP agentQ "g" none rfl
  exact ⟨h.1, h.2.1 ps0 (by simp [agentP]), h.2.2.2⟩

end Bua
